import Mathlib

/-!
Shallow embedding of the roam-code repository (fitness rule evaluator,
JSON envelope validation, the deps command and the MCP boundary), with
theorems checking the natural-language specification against the code.

Source files embedded:
- src/roam/commands/cmd_fitness.py  (rule loading and rule checkers)
- src/roam/commands/cmd_deps.py     (deps command lookup and exit path)
- src/roam/output/schema_registry.py (validate_envelope)
- src/roam/mcp_server.py            (_run_roam failure handling)

Modelling conventions: Python strings are Lean `String` limited to the
ASCII behaviour the code exercises; Python `int` is `Int`; SQLite REAL
columns are modelled as `ℚ` (IEEE rounding is not modelled); a raised
`StorageError`/`IOError` is `Except.error ()`; the external regex and
JSON libraries are passed in as abstract functions.
-/

namespace Roam

/-- Quotation mark character (ASCII 34), used by the quote stripping in
the fallback YAML loader. -/
def dquote : Char := Char.ofNat 34

/-- Apostrophe character (ASCII 39). -/
def squote : Char := Char.ofNat 39

/-- Python `str.strip()` whitespace set (ASCII part): space, tab,
newline, carriage return, vertical tab, form feed. -/
def isPySpace (c : Char) : Bool :=
  c == ' ' || c == Char.ofNat 9 || c == Char.ofNat 10 || c == Char.ofNat 13 ||
  c == Char.ofNat 11 || c == Char.ofNat 12

/-- Drop the characters satisfying `p` from both ends of a character list,
as Python `str.strip(chars)` does. -/
def stripList (p : Char → Bool) (cs : List Char) : List Char :=
  ((cs.dropWhile p).reverse.dropWhile p).reverse

/-- Python `s.strip(chars)` for a character predicate. -/
def pyStripChars (p : Char → Bool) (s : String) : String :=
  String.mk (stripList p s.toList)

/-- Python `s.strip()` (no argument: whitespace). -/
def pyStrip (s : String) : String :=
  pyStripChars isPySpace s

/-- Python `s.startswith(pre)`. -/
def pyStartsWith (s pre : String) : Bool :=
  List.isPrefixOf pre.toList s.toList

/-- Python `s.lower()` (ASCII case mapping; the code only lowercases
ASCII rule values). -/
def lowerStr (s : String) : String :=
  String.mk (s.toList.map Char.toLower)

/-- Split on every occurrence of a separator character, keeping empty
parts, as Python `s.split(sep)` with an explicit one-character separator
does. The accumulator holds the current part reversed. -/
def splitAllAux (sep : Char) : List Char → List Char → List (List Char)
  | [], acc => [acc.reverse]
  | c :: rest, acc =>
    if c == sep then acc.reverse :: splitAllAux sep rest []
    else splitAllAux sep rest (c :: acc)

/-- Python `s.split(sep)` for a one-character separator. -/
def pySplit (sep : Char) (s : String) : List String :=
  (splitAllAux sep s.toList []).map String.mk

/-- Python `s.strip().strip(chr(34)).strip(chr(39))` is used twice in the
fallback YAML loader; this is the two quote-stripping steps (double quotes
first, then single quotes), applied to an already stripped string. -/
def stripQuotes (s : String) : String :=
  pyStripChars (fun c => c == squote) (pyStripChars (fun c => c == dquote) s)

/-- Split a character list at the first occurrence of `sep`, like Python
`s.split(sep, 1)` when `sep` occurs; `none` when it does not. -/
def splitOnceList (sep : Char) : List Char → Option (List Char × List Char)
  | [] => none
  | c :: rest =>
    if c == sep then some ([], rest)
    else (splitOnceList sep rest).map (fun p => (c :: p.1, p.2))

/-- Python `s.split(sep, 1)` on strings, as an optional pair. -/
def splitFirst (sep : Char) (s : String) : Option (String × String) :=
  (splitOnceList sep s.toList).map (fun p => (String.mk p.1, String.mk p.2))

/-- Part before the first colon (`s.split(":", 1)[0]`); the whole string
when no colon is present. -/
def colonKey (s : String) : String :=
  match splitFirst ':' s with
  | some p => p.1
  | none => s

/-- Part after the first colon (`s.split(":", 1)[1]`); defaults to the
empty string when no colon is present (the call sites guard on a colon
being present, so the default is unreachable there). -/
def colonRest (s : String) : String :=
  match splitFirst ':' s with
  | some p => p.2
  | none => ""

/-- Consume further digits and single underscores between digits after an
initial digit, accumulating the value, as in Python numeric literals
accepted by `int()` and `float()`. Returns the value so far and the
unconsumed remainder. -/
def readMoreDigits (acc : Nat) : List Char → Nat × List Char
  | '_' :: c :: rest =>
    if c.isDigit then readMoreDigits (acc * 10 + (c.toNat - 48)) rest
    else (acc, '_' :: c :: rest)
  | c :: rest =>
    if c.isDigit then readMoreDigits (acc * 10 + (c.toNat - 48)) rest
    else (acc, c :: rest)
  | [] => (acc, [])

/-- Read a Python digit run (at least one digit, underscores allowed
between digits). Returns its value and the remainder, or `none` when the
input does not start with a digit. -/
def readDigits : List Char → Option (Nat × List Char)
  | c :: rest =>
    if c.isDigit then some (readMoreDigits (c.toNat - 48) rest)
    else none
  | [] => none

/-- Python `int(s)` on decimal strings (ASCII digits; unicode digits are
outside the modelled domain): surrounding whitespace, an optional sign,
then a digit run consuming the whole rest. -/
def pyInt (s : String) : Option Int :=
  let cs := stripList isPySpace s.toList
  let signAndRest : Int × List Char :=
    match cs with
    | '+' :: r => (1, r)
    | '-' :: r => (-1, r)
    | r => (1, r)
  match readDigits signAndRest.2 with
  | some (n, []) => some (signAndRest.1 * (n : Int))
  | _ => none

/-- Optional exponent part of a Python float literal: empty, or `e`/`E`,
an optional sign and a digit run consuming the whole rest. -/
def expPartOk : List Char → Bool
  | [] => true
  | c :: rest =>
    (c == 'e' || c == 'E') &&
    (let rest2 :=
      match rest with
      | '+' :: r => r
      | '-' :: r => r
      | r => r
     match readDigits rest2 with
     | some (_, []) => true
     | _ => false)

/-- Mantissa (with optional fractional part) followed by an optional
exponent, consuming the whole input. -/
def mantissaExpOk (cs : List Char) : Bool :=
  match readDigits cs with
  | some (_, rest) =>
    (match rest with
     | '.' :: rest2 =>
       (match readDigits rest2 with
        | some (_, rest3) => expPartOk rest3
        | none => expPartOk rest2)
     | _ => expPartOk rest)
  | none =>
    (match cs with
     | '.' :: rest2 =>
       (match readDigits rest2 with
        | some (_, rest3) => expPartOk rest3
        | none => false)
     | _ => false)

/-- Recogniser for strings accepted by Python `float(s)` (ASCII digits):
surrounding whitespace, optional sign, then `inf`/`infinity`/`nan` in any
case or a decimal literal with optional exponent. The numeric value is
not modelled (IEEE floating point is out of scope); the value of a float
is represented by its accepted literal. -/
def pyFloatOk (s : String) : Bool :=
  let cs := stripList isPySpace s.toList
  let body :=
    match cs with
    | '+' :: r => r
    | '-' :: r => r
    | r => r
  let low := lowerStr (String.mk body)
  low == "inf" || low == "infinity" || low == "nan" || mantissaExpOk body

/-- Scalar values produced by the fallback YAML loader in
`_parse_simple_yaml`: strings, booleans, integers, and floats (a float
keeps its accepted literal; its IEEE value is not modelled). -/
inductive YVal where
  | str (s : String)
  | bool (b : Bool)
  | int (n : Int)
  | float (lit : String)
deriving DecidableEq, Repr

/-- Type conversion of `_parse_simple_yaml` for a value string (already
stripped of whitespace and quotes): `true`/`false` case-insensitively to
booleans, then `int(val)`, then `float(val)`, else the string is kept. -/
def pyConvert (val : String) : YVal :=
  if lowerStr val == "true" then YVal.bool true
  else if lowerStr val == "false" then YVal.bool false
  else
    match pyInt val with
    | some n => YVal.int n
    | none => if pyFloatOk val then YVal.float val else YVal.str val

/-- A rule dictionary: insertion-ordered string-keyed mapping, as a
Python dict. -/
abbrev YDict := List (String × YVal)

/-- Python dict assignment `d[key] = v`: overwrite in place when the key
exists, append otherwise. -/
def dictSet (d : YDict) (k : String) (v : YVal) : YDict :=
  if d.any (fun p => p.1 == k) then
    d.map (fun p => if p.1 == k then (k, v) else p)
  else d ++ [(k, v)]

/-- One line of `_parse_simple_yaml`: state is (current rule, finished
rules). Blank lines and lines starting with `#` are skipped; a line
starting with `- name:` flushes the current rule and opens a new one
named by the rest of the line (whitespace then quotes stripped); other
lines containing a colon attach a converted key/value pair to the current
rule when one is open, and are ignored otherwise. -/
def parseStep (st : Option YDict × List YDict) (line : String) :
    Option YDict × List YDict :=
  let stripped := pyStrip line
  if stripped == "" || pyStartsWith stripped "#" then st
  else if pyStartsWith stripped "- name:" then
    let nm := stripQuotes (pyStrip (colonRest stripped))
    (some [("name", YVal.str nm)], st.2 ++ st.1.toList)
  else
    match st.1 with
    | some cur =>
      if stripped.toList.contains ':' then
        let key := pyStrip (colonKey stripped)
        let val := stripQuotes (pyStrip (colonRest stripped))
        (some (dictSet cur key (pyConvert val)), st.2)
      else st
    | none => st

/-- The fallback loader `_parse_simple_yaml`: fold the line parser over
the text split on newlines, then append the final open rule. -/
def parseSimpleYaml (text : String) : List YDict :=
  let st := (pySplit (Char.ofNat 10) text).foldl parseStep (none, [])
  st.2 ++ st.1.toList

/-- Compiled tokens of an fnmatch glob pattern, mirroring what
`fnmatch.translate` produces: a star (any sequence, slashes included), a
single-character wildcard, a literal character, or a character class with
a negation flag. -/
inductive GTok where
  | star
  | any
  | lit (c : Char)
  | cls (neg : Bool) (cs : List Char)
deriving DecidableEq, Repr

/-- Negation flag of a character class: a leading `!` negates and is
consumed, mirroring the `!` handling of `fnmatch.translate`. -/
def classNeg (ps : List Char) : Bool × List Char :=
  match ps with
  | '!' :: rest => (true, rest)
  | _ => (false, ps)

/-- A `]` right after the class opening (after an optional `!`) is a
literal member, mirroring `fnmatch.translate`. -/
def classBody (ps : List Char) : List Char × List Char :=
  match ps with
  | ']' :: rest => ([']'], rest)
  | _ => ([], ps)

/-- Scan a character class after an opening bracket. Returns the
negation flag, the class content and the rest after the closing bracket,
or `none` when no closing bracket exists (the opening bracket is then a
literal, as in `fnmatch.translate`). -/
def classScan (ps : List Char) : Option (Bool × List Char × List Char) :=
  let neg := classNeg ps
  let body := classBody neg.2
  match splitOnceList ']' body.2 with
  | some p => some (neg.1, body.1 ++ p.1, p.2)
  | none => none

/-- Membership of a character in a class body, with `a-b` ranges as in
the regex `fnmatch.translate` emits; a `-` at the start or end of the
class is a literal. Reversed ranges (which would error in the regex
engine) are treated as empty. -/
def classMatch : List Char → Char → Bool
  | [], _ => false
  | [a], c => a == c
  | a :: '-' :: b :: rest, c => (decide (a ≤ c) && decide (c ≤ b)) || classMatch rest c
  | a :: rest, c => (a == c) || classMatch rest c

/-- Compile an fnmatch pattern into tokens; the fuel argument bounds the
recursion and is called with the pattern length, which every step
strictly consumes, so it never runs out. -/
def compileGlobAux : Nat → List Char → List GTok
  | 0, _ => []
  | _, [] => []
  | fuel + 1, '*' :: ps => GTok.star :: compileGlobAux fuel ps
  | fuel + 1, '?' :: ps => GTok.any :: compileGlobAux fuel ps
  | fuel + 1, '[' :: ps =>
    (match classScan ps with
     | none => GTok.lit '[' :: compileGlobAux fuel ps
     | some (neg, cls, rest) => GTok.cls neg cls :: compileGlobAux fuel rest)
  | fuel + 1, c :: ps => GTok.lit c :: compileGlobAux fuel ps

/-- Compile an fnmatch pattern into tokens. -/
def compileGlob (ps : List Char) : List GTok :=
  compileGlobAux ps.length ps

/-- Match compiled glob tokens against a character list; a star matches
any sequence (slashes included, as fnmatch does). Every recursive step
consumes a token or a character, so fuel of tokens plus characters plus
one never runs out. -/
def matchToksAux : Nat → List GTok → List Char → Bool
  | 0, _, _ => false
  | _ + 1, [], [] => true
  | _ + 1, [], _ :: _ => false
  | fuel + 1, GTok.star :: ts, [] => matchToksAux fuel ts []
  | fuel + 1, GTok.star :: ts, c :: s2 =>
    matchToksAux fuel ts (c :: s2) || matchToksAux fuel (GTok.star :: ts) s2
  | fuel + 1, GTok.any :: ts, _ :: s2 => matchToksAux fuel ts s2
  | _ + 1, GTok.any :: _, [] => false
  | fuel + 1, GTok.lit c :: ts, d :: s2 => (c == d) && matchToksAux fuel ts s2
  | _ + 1, GTok.lit _ :: _, [] => false
  | fuel + 1, GTok.cls neg cs :: ts, d :: s2 =>
    ((classMatch cs d) != neg) && matchToksAux fuel ts s2
  | _ + 1, GTok.cls _ _ :: _, [] => false

/-- Match compiled glob tokens against a character list. -/
def matchToks (ts : List GTok) (s : List Char) : Bool :=
  matchToksAux (ts.length + s.length + 1) ts s

/-- Python `fnmatch.fnmatch(name, pattern)` as used by
`_check_dependency_rule`: on POSIX `os.path.normcase` is the identity, so
matching is case-sensitive and literal. -/
def fnmatch (nm pat : String) : Bool :=
  matchToks (compileGlob pat.toList) nm.toList

/-- SQLite `LIKE` matching (`%` any sequence, `_` one character,
case-insensitive for ASCII, as the default `LIKE` is), used by the
suffix lookup of the deps command. The fuel argument works as in
`matchToksAux`. -/
def likeMatchAux : Nat → List Char → List Char → Bool
  | 0, _, _ => false
  | _ + 1, [], [] => true
  | _ + 1, [], _ :: _ => false
  | fuel + 1, '%' :: ps, [] => likeMatchAux fuel ps []
  | fuel + 1, '%' :: ps, c :: s2 =>
    likeMatchAux fuel ps (c :: s2) || likeMatchAux fuel ('%' :: ps) s2
  | fuel + 1, '_' :: ps, _ :: s2 => likeMatchAux fuel ps s2
  | _ + 1, '_' :: _, [] => false
  | fuel + 1, p :: ps, c :: s2 => (p.toLower == c.toLower) && likeMatchAux fuel ps s2
  | _ + 1, _ :: _, [] => false

/-- SQLite `LIKE` on pattern and subject character lists. -/
def likeMatch (ps s : List Char) : Bool :=
  likeMatchAux (ps.length + s.length + 1) ps s

/-- One row of the edge query of `_check_dependency_rule` (edges joined
with both endpoint symbols and their files). `line` is nullable in the
schema. -/
structure EdgeRow where
  sourceName : String
  targetName : String
  sourcePath : String
  targetPath : String
  edgeKind : String
  line : Option Nat
deriving DecidableEq, Repr

/-- One row of the cognitive-complexity query of `_check_metric_rule`
(symbol_metrics joined with symbols and files). The REAL column
`cognitive_complexity` is modelled as `ℚ`. -/
structure SymMetricRow where
  name : String
  kind : String
  lineStart : Nat
  path : String
  cognitiveComplexity : ℚ
deriving DecidableEq, Repr

/-- One row of the symbols-with-graph-metrics join used by
`_check_count_metric`: the exported flag and the nullable in/out degree
and betweenness columns of `graph_metrics`. -/
structure GMRow where
  isExported : Bool
  inDegree : Option Int
  outDegree : Option Int
  betweenness : ℚ
deriving DecidableEq, Repr

/-- One row of the symbols query of `_check_naming_rule` (symbols joined
with files). -/
structure SymbolRow where
  name : String
  kind : String
  lineStart : Nat
  path : String
deriving DecidableEq, Repr

/-- A read-only index connection, as the checkers consume it: each query
site yields its rows, or `Except.error ()` when the underlying storage
raises (`StorageError`/`IOError`). The SQL of each query (joins, WHERE,
ORDER BY, LIMIT) is applied by the checker embeddings below. `graphQ`
stands for `build_symbol_graph` followed by `find_cycles`; those live in
`roam.graph` outside the embedded sources, so (modelled from the spec,
sections 4.D and 4.E) the number of graph nodes and the list of cycles
they produce are taken as part of the snapshot. -/
structure DB where
  edgesQ : Except Unit (List EdgeRow)
  graphQ : Except Unit (Nat × List (List Nat))
  symMetricsQ : Except Unit (List SymMetricRow)
  gmQ : Except Unit (List GMRow)
  symbolsQ : Except Unit (List SymbolRow)

/-- A violation record. The source builds dicts that also carry the
presentational `message` and `source` strings (the latter via
`roam.output.formatter.loc`, outside the embedded sources); the fields
the analyses and the envelope inspect are modelled, with `sym` standing
for the per-symbol identification the message/source strings carry.
`vtype` is the dict key `type`. -/
structure Violation where
  rule : String
  vtype : String
  metric : Option String := none
  sym : Option String := none
  target : Option String := none
  edgeKind : Option String := none
  value : Option ℚ := none
  threshold : Option Int := none
deriving DecidableEq, Repr

/-- A dependency rule: `from`/`to` globs (default between-everything) and
the `allow` flag (default false), as `_check_dependency_rule` reads them
with `rule.get`. Non-string glob values would raise inside fnmatch and
are outside the modelled domain. -/
structure DepRule where
  name : String
  fromPat : String := "**"
  toPat : String := "**"
  allow : Bool := false
deriving DecidableEq, Repr

/-- A metric rule: the metric name and optional integer `max`/`min`
bounds, as `_check_metric_rule` reads them with `rule.get`. -/
structure MetricRule where
  name : String
  metric : String := ""
  max : Option Int := none
  min : Option Int := none
deriving DecidableEq, Repr

/-- A naming rule, as `_check_naming_rule` reads it with `rule.get`. -/
structure NamingRule where
  name : String
  kind : String := "function"
  pattern : String := ""
  exclude : String := ""
deriving DecidableEq, Repr

/-- The external `re` module, abstracted: compiling a pattern yields the
truthiness of `compiled.match(name)` as a function, or raises on an
invalid pattern. -/
structure RegexEngine where
  compile : String → Except Unit (String → Bool)

/-- Embeds `_check_dependency_rule`: for every edge row, a violation is
recorded exactly when the source path matches the `from` glob, the
target path matches the `to` glob, and `allow` is false (the docstring
announces an inverse check for `allow=true`, but the code has no branch
for it). A storage error from the query propagates. -/
def checkDependencyRule (rule : DepRule) (db : DB) : Except Unit (List Violation) :=
  match db.edgesQ with
  | Except.error e => Except.error e
  | Except.ok rows =>
    Except.ok (rows.filterMap (fun r =>
      if fnmatch r.sourcePath rule.fromPat && fnmatch r.targetPath rule.toPat && !rule.allow then
        some { rule := rule.name, vtype := "dependency",
               target := some r.targetPath, edgeKind := some r.edgeKind }
      else none))

/-- The inline health score of the `health_score` branch of
`_check_metric_rule`: `max(0, 100 - int(cycle_syms / total * 100 * 2))`,
with the truncating conversion written as natural-number division. -/
def healthScoreInline (total : ℕ) (cycles : List (List ℕ)) : Int :=
  max 0 (100 - Int.ofNat ((cycles.map List.length).sum * 200 / total))

/-- The repeated max/min threshold block of `_check_metric_rule` and
`_check_count_metric`: append a violation when the value exceeds `max`,
then one when it is below `min`. -/
def thresholdChecks (ruleName metricName : String) (maxv minv : Option Int) (value : ℚ) :
    List Violation :=
  (match maxv with
   | some m =>
     if (m : ℚ) < value then
       [{ rule := ruleName, vtype := "metric", metric := some metricName,
          value := some value, threshold := some m }]
     else []
   | none => []) ++
  (match minv with
   | some m =>
     if value < (m : ℚ) then
       [{ rule := ruleName, vtype := "metric", metric := some metricName,
          value := some value, threshold := some m }]
     else []
   | none => [])

/-- Descending order on cognitive complexity, the `ORDER BY
sm.cognitive_complexity DESC` of the per-symbol metric query. -/
def ccGE (a b : SymMetricRow) : Prop :=
  b.cognitiveComplexity ≤ a.cognitiveComplexity

instance : DecidableRel ccGE := fun a b =>
  inferInstanceAs (Decidable (b.cognitiveComplexity ≤ a.cognitiveComplexity))

instance : IsTotal SymMetricRow ccGE :=
  ⟨fun a b => le_total b.cognitiveComplexity a.cognitiveComplexity⟩

instance : IsTrans SymMetricRow ccGE :=
  ⟨fun _ _ _ h1 h2 => le_trans h2 h1⟩

/-- Embeds `_check_count_metric`: the COUNT queries over the
symbols/graph_metrics join (dead exports, god components, bottlenecks;
`layer_violations` falls through with no violations), then the max/min
threshold block. SQL NULL propagation: a row with a NULL degree is not
counted by `in_degree + out_degree > 20`, and `in_degree IS NULL` counts
as dead. No exception handler here: a storage error propagates. -/
def checkCountMetric (metric : String) (rule : MetricRule) (db : DB) :
    Except Unit (List Violation) :=
  if metric == "dead_exports" then
    match db.gmQ with
    | Except.error e => Except.error e
    | Except.ok rows =>
      let count := (rows.filter (fun r =>
        r.isExported && (r.inDegree == none || r.inDegree == some 0))).length
      Except.ok (thresholdChecks rule.name metric rule.max rule.min (count : ℚ))
  else if metric == "god_components" then
    match db.gmQ with
    | Except.error e => Except.error e
    | Except.ok rows =>
      let count := (rows.filter (fun r =>
        match r.inDegree, r.outDegree with
        | some i, some o => decide (20 < i + o)
        | _, _ => false)).length
      Except.ok (thresholdChecks rule.name metric rule.max rule.min (count : ℚ))
  else if metric == "bottlenecks" then
    match db.gmQ with
    | Except.error e => Except.error e
    | Except.ok rows =>
      let count := (rows.filter (fun r => decide ((1 / 10 : ℚ) < r.betweenness))).length
      Except.ok (thresholdChecks rule.name metric rule.max rule.min (count : ℚ))
  else Except.ok []

/-- Embeds `_check_metric_rule`. The `cycles`, `health_score` and
`cognitive_complexity` branches each sit inside a bare
`try ... except Exception: pass`, so a storage error there yields an
empty violation list; the count metrics delegate to
`_check_count_metric`, which has no handler. For `health_score` the code
computes the score inline as `max(0, 100 - int(cycle_pct * 2))` with
`cycle_pct = cycle_syms / total_syms * 100`; the float expression is
modelled as exact rational arithmetic truncated to an integer, i.e.
`(cycle_syms * 200) / total_syms` in truncating division. -/
def checkMetricRule (rule : MetricRule) (db : DB) : Except Unit (List Violation) :=
  if rule.metric == "cycles" then
    match db.graphQ with
    | Except.error _ => Except.ok []
    | Except.ok g =>
      Except.ok (thresholdChecks rule.name "cycles" rule.max rule.min (g.2.length : ℚ))
  else if rule.metric == "health_score" then
    match db.graphQ with
    | Except.error _ => Except.ok []
    | Except.ok g =>
      if g.1 == 0 then Except.ok []
      else
        Except.ok (thresholdChecks rule.name "health_score" rule.max rule.min
          ((healthScoreInline g.1 g.2 : Int) : ℚ))
  else if rule.metric == "cognitive_complexity" then
    match db.symMetricsQ with
    | Except.error _ => Except.ok []
    | Except.ok rows =>
      let threshold : Int := rule.max.getD 999
      let offenders :=
        (List.insertionSort ccGE
          (rows.filter (fun r => decide ((threshold : ℚ) < r.cognitiveComplexity)))).take 50
      Except.ok (offenders.map (fun r =>
        { rule := rule.name, vtype := "metric", metric := some "cognitive_complexity",
          sym := some r.name, value := some r.cognitiveComplexity,
          threshold := some threshold }))
  else if rule.metric == "god_components" || rule.metric == "bottlenecks" ||
          rule.metric == "dead_exports" || rule.metric == "layer_violations" then
    checkCountMetric rule.metric rule db
  else Except.ok []

/-- Embeds `_check_naming_rule`: empty pattern returns no violations
before anything else; then the pattern (and the non-empty exclude) are
compiled, the symbols of the requested kind are fetched, excluded names
are skipped, and a name not matching the pattern is a violation. Storage
and compile errors propagate. -/
def checkNamingRule (re : RegexEngine) (rule : NamingRule) (db : DB) :
    Except Unit (List Violation) :=
  if rule.pattern == "" then Except.ok []
  else
    match re.compile rule.pattern with
    | Except.error e => Except.error e
    | Except.ok rx =>
      match (if rule.exclude == "" then Except.ok none
             else (re.compile rule.exclude).map some) with
      | Except.error e => Except.error e
      | Except.ok exRx =>
        match db.symbolsQ with
        | Except.error e => Except.error e
        | Except.ok rows =>
          Except.ok ((rows.filter (fun r => r.kind == rule.kind)).filterMap (fun r =>
            if (match exRx with
                | some ex => ex r.name
                | none => false) then none
            else if rx r.name then none
            else some { rule := rule.name, vtype := "naming", sym := some r.name }))

/-- A loaded rule as the fitness command dispatches it: the `type` field
selects the checker (`dependency`, `metric`, `naming`); any other type
has no checker in `_CHECKERS` and the rule is skipped. The structured
parameters are the fields each checker reads with `rule.get`; optional
`reason`/`link` fields only affect the rendered text, not the results or
the exit code, and are not modelled. -/
inductive RuleCfg where
  | dep (r : DepRule)
  | metric (r : MetricRule)
  | naming (r : NamingRule)
  | unknown (name rtype : String)
deriving DecidableEq, Repr

/-- The rule name recorded in a result entry (`rule.get("name",
"unnamed")`; the structured rules always carry their name). -/
def RuleCfg.ruleName : RuleCfg → String
  | .dep r => r.name
  | .metric r => r.name
  | .naming r => r.name
  | .unknown n _ => n

/-- The `type` string of a rule. -/
def RuleCfg.ruleType : RuleCfg → String
  | .dep _ => "dependency"
  | .metric _ => "metric"
  | .naming _ => "naming"
  | .unknown _ t => t

/-- The checker dispatch `_CHECKERS.get(rtype)` followed by the call:
`none` when the rule type has no checker (the loop then continues to the
next rule). -/
def runRule (re : RegexEngine) (db : DB) : RuleCfg → Option (Except Unit (List Violation))
  | .dep r => some (checkDependencyRule r db)
  | .metric r => some (checkMetricRule r db)
  | .naming r => some (checkNamingRule re r db)
  | .unknown _ _ => none

/-- One entry of `rule_results` in the fitness command: name, type, PASS
or FAIL status, and the violation count of this rule. -/
structure RuleResult where
  name : String
  rtype : String
  status : String
  nviolations : Nat
deriving DecidableEq, Repr

/-- The rule loop of the fitness command: rules without a checker are
skipped; each checked rule contributes a result entry (PASS exactly when
its checker returned no violations) and extends `all_violations`. An
exception raised by a checker aborts the whole command (it propagates to
the CLI boundary). -/
def fitnessLoop (re : RegexEngine) (db : DB) :
    List RuleCfg → Except Unit (List RuleResult × List Violation)
  | [] => Except.ok ([], [])
  | r :: rest =>
    match runRule re db r with
    | none => fitnessLoop re db rest
    | some res =>
      match res with
      | Except.error e => Except.error e
      | Except.ok vs =>
        match fitnessLoop re db rest with
        | Except.error e => Except.error e
        | Except.ok p =>
          Except.ok ({ name := r.ruleName, rtype := r.ruleType,
                       status := if vs.isEmpty then "PASS" else "FAIL",
                       nviolations := vs.length } :: p.1,
                     vs ++ p.2)

/-- Number of FAIL entries (`failed` in the fitness command). -/
def failedCount (rs : List RuleResult) : Nat :=
  (rs.filter (fun r => r.status == "FAIL")).length

/-- The exit of the fitness command after the loop: `SystemExit(1)` when
any rule failed, otherwise a normal return (exit code 0). -/
def fitnessExitCode (rs : List RuleResult) : Nat :=
  if 0 < failedCount rs then 1 else 0

/-- The `violations` array of the JSON envelope: capped at 100 entries. -/
def fitnessJsonViolations (allViolations : List Violation) : List Violation :=
  allViolations.take 100

/-- The `summary.total_violations` field of the JSON envelope: the
uncapped count. -/
def fitnessTotalViolations (allViolations : List Violation) : Nat :=
  allViolations.length

/-- Embeds the lookup of the deps command (rows of the `files` table are
identified here by their unique `path`): the exact-path query
`FILE_BY_PATH` (its SQL lives in `roam.db.queries` outside the embedded
sources; modelled from the spec, which makes paths unique, as an exact
match on `path`), then the fallback `path LIKE ? LIMIT 1` with the
parameter `"%" ++ path`, after normalising backslashes to slashes. -/
def depsResolve (files : List String) (rawPath : String) : Option String :=
  let path := String.mk (rawPath.toList.map (fun c => if c == Char.ofNat 92 then '/' else c))
  match files.find? (fun f => f == path) with
  | some f => some f
  | none => files.find? (fun f => likeMatch ('%' :: path.toList) f.toList)

/-- The not-found exit of the deps command: when neither lookup finds a
row, the command raises `SystemExit(1)`; otherwise it proceeds to render
the import tables and exits normally. -/
def depsExitOnMissing (files : List String) (rawPath : String) : Option Nat :=
  match depsResolve files rawPath with
  | none => some 1
  | some _ => none

/-- A JSON value, for envelope dictionaries. -/
inductive JVal where
  | null
  | bool (b : Bool)
  | int (n : Int)
  | str (s : String)
  | arr (xs : List JVal)
  | obj (fields : List (String × JVal))

/-- Lookup in a JSON object field list (Python dict keys are unique; the
first binding wins). -/
def lookupField (fields : List (String × JVal)) (k : String) : Option JVal :=
  (fields.find? (fun p => p.1 == k)).map (fun p => p.2)

/-- Field lookup on a JSON value: `none` on anything but an object. -/
def objGet (j : JVal) (k : String) : Option JVal :=
  match j with
  | JVal.obj fields => lookupField fields k
  | _ => none

/-- The validation errors of `validate_envelope`, one constructor per
message string the source appends ("Missing required field: ...",
the summary-must-be-a-dict message, and the semantic-version message). -/
inductive EnvErr where
  | missingField (field : String)
  | summaryNotDict
  | badSchemaVersion
deriving DecidableEq, Repr

/-- Iteration order of `ENVELOPE_SCHEMA["required_fields"]` (Python dict
insertion order). -/
def REQUIRED_FIELDS : List String :=
  ["schema", "schema_version", "command", "version", "timestamp", "summary"]

/-- Python `str.isdigit()` restricted to ASCII (non-ASCII digit
characters are outside the modelled domain): non-empty and all digits. -/
def pyIsdigit (s : String) : Bool :=
  !(s == "") && s.toList.all Char.isDigit

/-- Embeds `validate_envelope`: collect an error per missing required
field, an error when a present `summary` is not a dict, and an error
when `schema_version` does not split on dots into exactly three all-digit
parts; returns `(errors == [], errors)`. A present `schema_version` that
is not a string has no `.split` and raises (modelled as `none`). Nothing
inspects the contents of `summary`. -/
def validate_envelope (data : List (String × JVal)) : Option (Bool × List EnvErr) :=
  let errs1 := REQUIRED_FIELDS.filterMap (fun f =>
    if (lookupField data f).isNone then some (EnvErr.missingField f) else none)
  let errs2 := errs1 ++
    (match lookupField data "summary" with
     | some (JVal.obj _) => []
     | some _ => [EnvErr.summaryNotDict]
     | none => [])
  match lookupField data "schema_version" with
  | none => some (errs2.isEmpty, errs2)
  | some (JVal.str s) =>
    let parts := pySplit '.' s
    let errs3 := errs2 ++
      (if parts.length != 3 || !(parts.all pyIsdigit) then [EnvErr.badSchemaVersion] else [])
    some (errs3.isEmpty, errs3)
  | some _ => none

/-- Outcome of the subprocess call in `_run_roam`: the process completed
with a return code, stdout and stderr; or the 60-second timeout fired;
or `subprocess.run` itself raised (the message of the caught
exception). -/
inductive RunOutcome where
  | completed (returncode : Int) (stdout stderr : String)
  | timedOut
  | raised (msg : String)

/-- Embeds `_run_roam` (the subprocess invocation abstracted into a
`RunOutcome`, the external `json.loads` into the `parse` argument, whose
error carries the exception text): parsed JSON is returned as-is when the
command exited 0 with non-blank stdout; every failure path returns a
dict with an `error` message (plus `exit_code` for a completed run). -/
def runRoam (parse : String → Except String JVal) : RunOutcome → JVal
  | RunOutcome.completed rc out err =>
    if rc == 0 && !(pyStrip out == "") then
      match parse out with
      | Except.ok v => v
      | Except.error msg =>
        JVal.obj [("error", JVal.str ("Failed to parse JSON output: " ++ msg))]
    else
      JVal.obj [("error", JVal.str (if pyStrip err == "" then "Command failed" else pyStrip err)),
                ("exit_code", JVal.int rc)]
  | RunOutcome.timedOut => JVal.obj [("error", JVal.str "Command timed out after 60s")]
  | RunOutcome.raised msg => JVal.obj [("error", JVal.str msg)]

/-- An invocation through `_run_roam` that fails in one of the ways the
code distinguishes: non-zero exit, blank stdout, unparseable stdout,
timeout, or a raised exception. -/
def RunFailure (parse : String → Except String JVal) : RunOutcome → Prop
  | RunOutcome.completed rc out _ =>
    rc ≠ 0 ∨ pyStrip out = "" ∨ ∃ m, parse out = Except.error m
  | RunOutcome.timedOut => True
  | RunOutcome.raised _ => True

/-- Modelled from the spec: the full health score of section 4.F, as a
spec-side definition to compare against the inline computation of the
fitness metric rule. Start at 100; subtract 2 times the tangle
percentage; subtract 1 per god component capped at 20; subtract 1 per 5
percent of dead exports capped at 15; subtract
`min(30, 2 * critical + warning)`; clamp to [0, 100]. -/
def specHealthScore (tanglePct : ℚ) (godComponents : ℕ) (deadExportPct : ℚ)
    (critical warning : ℕ) : ℚ :=
  max 0 (min 100
    (100 - 2 * tanglePct - min (godComponents : ℚ) 20 - min (deadExportPct / 5) 15 -
      min 30 (2 * (critical : ℚ) + (warning : ℚ))))

/-- Modelled from the spec: `tangle_ratio` of section 4.F is (symbols in
a cycle) / (total symbols); this is that ratio as a percentage, for a
graph with `total` symbols and the given cycle list. -/
def specTanglePct (total : ℕ) (cycles : List (List ℕ)) : ℚ :=
  if total = 0 then 0 else ((cycles.map List.length).sum : ℚ) / (total : ℚ) * 100

/-- Modelled from the spec: `god_components` of section 4.F is the count
of symbols with in-degree plus out-degree above 20 (the same count the
`god_components` COUNT query computes). -/
def specGodComponents (rows : List GMRow) : ℕ :=
  (rows.filter (fun r =>
    match r.inDegree, r.outDegree with
    | some i, some o => decide (20 < i + o)
    | _, _ => false)).length

/-- A regex engine whose every pattern compiles and matches everything;
used where naming rules play no role. -/
def reTrue : RegexEngine :=
  ⟨fun _ => Except.ok (fun _ => true)⟩

/-- A JSON parser that rejects every input, for exercising the failure
paths of `_run_roam` at concrete inputs. -/
def parseNone : String → Except String JVal :=
  fun _ => Except.error "Expecting value: line 1 column 1 (char 0)"

/-- An edge from a file under `a/` to a file under `c/`. -/
def edgeAC : EdgeRow :=
  { sourceName := "serve", targetName := "query", sourcePath := "a/x.py",
    targetPath := "c/y.py", edgeKind := "call", line := some 3 }

/-- An index snapshot holding only the edge `a/x.py -> c/y.py`. -/
def dbEdgeAC : DB :=
  { edgesQ := Except.ok [edgeAC], graphQ := Except.ok (0, []),
    symMetricsQ := Except.ok [], gmQ := Except.ok [], symbolsQ := Except.ok [] }

/-- A dependency rule with `allow=true` from `a/*` to `b/*`. -/
def ruleAllowTrue : DepRule :=
  { name := "layering", fromPat := "a/*", toPat := "b/*", allow := true }

/-- An edge from a file under `a/` to a file under `b/`. -/
def edgeAB : EdgeRow :=
  { sourceName := "serve", targetName := "query", sourcePath := "a/x.py",
    targetPath := "b/d.py", edgeKind := "call", line := some 3 }

/-- A forbidding dependency rule from `a/*` to `b/*`. -/
def ruleForbidAB : DepRule :=
  { name := "no a to b", fromPat := "a/*", toPat := "b/*", allow := false }

/-- An index snapshot holding only the edge `a/x.py -> b/d.py`. -/
def dbEdgeAB : DB :=
  { edgesQ := Except.ok [edgeAB], graphQ := Except.ok (0, []),
    symMetricsQ := Except.ok [], gmQ := Except.ok [], symbolsQ := Except.ok [] }

/-- The violation the edge `a/x.py -> b/d.py` produces under
`ruleForbidAB`. -/
def violAB : Violation :=
  { rule := "no a to b", vtype := "dependency", target := some "b/d.py",
    edgeKind := some "call" }

/-- An index snapshot with the edge `a/x.py -> b/d.py` repeated 101
times (redundant edge rows are permitted by the data model). -/
def dbEdgeAB101 : DB :=
  { edgesQ := Except.ok (List.replicate 101 edgeAB), graphQ := Except.ok (0, []),
    symMetricsQ := Except.ok [], gmQ := Except.ok [], symbolsQ := Except.ok [] }

/-- A graph-metrics row whose degrees sum to 25: one god component. -/
def gmGod : GMRow :=
  { isExported := false, inDegree := some 15, outDegree := some 10, betweenness := 0 }

/-- An index snapshot with ten symbols, no cycles, and one god
component. -/
def dbTenSymsOneGod : DB :=
  { edgesQ := Except.ok [], graphQ := Except.ok (10, []),
    symMetricsQ := Except.ok [], gmQ := Except.ok [gmGod], symbolsQ := Except.ok [] }

/-- A health-score rule with `min: 100`. -/
def ruleHealthMin100 : MetricRule :=
  { name := "Health score minimum", metric := "health_score", min := some 100 }

/-- A health-score rule with `min: 70`. -/
def ruleHealthMin70 : MetricRule :=
  { name := "Health score above 70", metric := "health_score", min := some 70 }

/-- An index snapshot with one symbol that forms a self-loop cycle. -/
def dbOneSymCycle : DB :=
  { edgesQ := Except.ok [], graphQ := Except.ok (1, [[0]]),
    symMetricsQ := Except.ok [], gmQ := Except.ok [], symbolsQ := Except.ok [] }

/-- A cognitive-complexity rule with `max: 25`. -/
def ruleCcMax25 : MetricRule :=
  { name := "Max function complexity", metric := "cognitive_complexity", max := some 25 }

/-- An index snapshot whose symbol-metrics query raises a storage
error. -/
def dbMetricsRaise : DB :=
  { edgesQ := Except.ok [], graphQ := Except.ok (1, []),
    symMetricsQ := Except.error (), gmQ := Except.ok [], symbolsQ := Except.ok [] }

/-- Three symbol-metric rows with complexities 30, 99 and 10. -/
def ccRows : List SymMetricRow :=
  [{ name := "f", kind := "function", lineStart := 1, path := "a/x.py",
     cognitiveComplexity := 30 },
   { name := "g", kind := "function", lineStart := 9, path := "a/x.py",
     cognitiveComplexity := 99 },
   { name := "h", kind := "function", lineStart := 20, path := "b/d.py",
     cognitiveComplexity := 10 }]

/-- An index snapshot holding the three symbol-metric rows. -/
def dbCcRows : DB :=
  { edgesQ := Except.ok [], graphQ := Except.ok (0, []),
    symMetricsQ := Except.ok ccRows, gmQ := Except.ok [], symbolsQ := Except.ok [] }

/-- An envelope dict with all six required fields, a well-formed
`schema_version`, and a summary object that has no `verdict` key. -/
def envNoVerdict : List (String × JVal) :=
  [("schema", JVal.str "roam-fitness-v1"),
   ("schema_version", JVal.str "1.0.0"),
   ("command", JVal.str "fitness"),
   ("version", JVal.str "0.5.0"),
   ("timestamp", JVal.str "2026-02-20T00:00:00Z"),
   ("summary", JVal.obj [("rules_checked", JVal.int 0)])]

/-- C2 failing input: a dependency rule with `allow=true` whose source
glob matches the edge source and whose target glob does not match the
edge target; the docstring and the spec call this a violation, the code
reports none because its only branch requires `allow` to be false. -/
theorem dependency_allow_true_reports_nothing :
    ruleAllowTrue.allow = true ∧
    fnmatch edgeAC.sourcePath ruleAllowTrue.fromPat = true ∧
    fnmatch edgeAC.targetPath ruleAllowTrue.toPat = false ∧
    checkDependencyRule ruleAllowTrue dbEdgeAC = Except.ok [] :=
  ⟨rfl, rfl, rfl, rfl⟩

/-- C5 failing input: a `cognitive_complexity` metric rule evaluated on
an index whose symbol-metrics query raises a storage error. The bare
`except Exception: pass` swallows the error: the checker returns an
empty violation list instead of propagating, the rule is recorded as
PASS, and the fitness command exits 0. -/
theorem metric_rule_swallows_storage_error :
    dbMetricsRaise.symMetricsQ = Except.error () ∧
    checkMetricRule ruleCcMax25 dbMetricsRaise = Except.ok [] ∧
    fitnessLoop reTrue dbMetricsRaise [RuleCfg.metric ruleCcMax25] =
      Except.ok ([{ name := "Max function complexity", rtype := "metric",
                    status := "PASS", nviolations := 0 }], []) ∧
    fitnessExitCode [{ name := "Max function complexity", rtype := "metric",
                       status := "PASS", nviolations := 0 }] = 0 :=
  ⟨rfl, rfl, rfl, rfl⟩

/-- C6 failing input: the deps command on a path found neither exactly
nor by suffix match raises `SystemExit(1)`, although the documented exit
code contract reserves 1 for fitness violations. -/
theorem deps_not_found_exits_one :
    depsExitOnMissing [] "nope.py" = some 1 ∧
    depsExitOnMissing ["src/app.py"] "nope.py" = some 1 ∧
    depsExitOnMissing ["src/app.py"] "app.py" = none :=
  ⟨rfl, by decide, by decide⟩

/-- C7 counterexample: a completed invocation with exit code 1, empty
stdout and stderr `boom` is a failing invocation, yet `_run_roam`
returns the dict with an `error` and an `exit_code` key and no
`summary` object at all, so no `summary.verdict` equals `error`. -/
theorem run_roam_failure_lacks_verdict :
    runRoam parseNone (RunOutcome.completed 1 "" "boom") =
      JVal.obj [("error", JVal.str "boom"), ("exit_code", JVal.int 1)] ∧
    objGet (runRoam parseNone (RunOutcome.completed 1 "" "boom")) "summary" = none :=
  ⟨rfl, rfl⟩

/-- C3 counterexample: an envelope dict with all six required fields, a
well-formed `schema_version`, and a summary object lacking a `verdict`
key is accepted by `validate_envelope` with an empty error list. -/
theorem validate_envelope_accepts_missing_verdict :
    validate_envelope envNoVerdict = some (true, []) ∧
    lookupField envNoVerdict "summary" =
      some (JVal.obj [("rules_checked", JVal.int 0)]) ∧
    lookupField [("rules_checked", JVal.int 0)] "verdict" = none :=
  ⟨rfl, rfl, rfl⟩

/-- C4 counterexample: on an index with ten symbols, no cycles and one
god component, the full health formula of the spec gives 99, below the
`min: 100` bound of the rule, so the claim predicts a violation; the
inline computation of the fitness rule subtracts only the cycle term,
giving 100, and the code reports no violation. -/
theorem health_rule_ignores_other_penalties :
    checkMetricRule ruleHealthMin100 dbTenSymsOneGod = Except.ok [] ∧
    ruleHealthMin100.min = some 100 ∧
    dbTenSymsOneGod.graphQ = Except.ok (10, []) ∧
    dbTenSymsOneGod.gmQ = Except.ok [gmGod] ∧
    specGodComponents [gmGod] = 1 ∧
    specHealthScore (specTanglePct 10 []) (specGodComponents [gmGod]) 0 0 0 = 99 ∧
    ((99 : ℚ) < 100) ∧
    healthScoreInline 10 [] = 100 :=
  ⟨rfl, rfl, rfl, rfl, rfl,
   by norm_num [specHealthScore, specTanglePct, specGodComponents, gmGod],
   by norm_num, rfl⟩

/-- Structural facts about the fitness rule loop when it completes
without a checker exception: a FAIL entry exists exactly when some
checked rule returned a non-empty violation list, which happens exactly
when the collected violation list is non-empty. -/
theorem fitnessLoop_ok_iff (re : RegexEngine) (db : DB) :
    ∀ (rules : List RuleCfg) (rs : List RuleResult) (vs : List Violation),
      fitnessLoop re db rules = Except.ok (rs, vs) →
      ((0 < failedCount rs ↔
         ∃ r ∈ rules, ∃ v, runRule re db r = some (Except.ok v) ∧ v ≠ []) ∧
       (0 < failedCount rs ↔ vs ≠ [])) := by
  intro rules
  induction rules with
  | nil =>
    intro rs vs h
    simp only [fitnessLoop, Except.ok.injEq, Prod.mk.injEq] at h
    obtain ⟨h1, h2⟩ := h
    subst h1; subst h2
    simp [failedCount]
  | cons r rest ih =>
    intro rs vs h
    simp only [fitnessLoop] at h
    cases hr : runRule re db r with
    | none =>
      rw [hr] at h
      have hi := ih rs vs h
      refine ⟨?_, hi.2⟩
      rw [hi.1]
      constructor
      · rintro ⟨x, hx, hv⟩
        exact ⟨x, List.mem_cons_of_mem _ hx, hv⟩
      · rintro ⟨x, hx, v, hxv, hne⟩
        rcases List.mem_cons.mp hx with heq | hx2
        · subst heq; rw [hr] at hxv; cases hxv
        · exact ⟨x, hx2, v, hxv, hne⟩
    | some res =>
      rw [hr] at h
      cases res with
      | error e => simp at h
      | ok v =>
        cases hrest : fitnessLoop re db rest with
        | error e => rw [hrest] at h; simp at h
        | ok p =>
          rw [hrest] at h
          simp only [Except.ok.injEq] at h
          have h1 : _ = rs := congrArg Prod.fst h
          have h2 : v ++ p.2 = vs := congrArg Prod.snd h
          subst h1; subst h2
          have ihp := ih p.1 p.2 hrest
          by_cases hv : v = []
      /-
        PASS case: the new entry does not change the failed count.
      -/
          · subst hv
            have hfc : failedCount
                ({ name := r.ruleName, rtype := r.ruleType,
                   status := if ([] : List Violation).isEmpty then "PASS" else "FAIL",
                   nviolations := ([] : List Violation).length } :: p.1) = failedCount p.1 := by
              simp [failedCount, List.filter_cons]
            rw [hfc]
            constructor
            · rw [ihp.1]
              constructor
              · rintro ⟨x, hx, hxv⟩
                exact ⟨x, List.mem_cons_of_mem _ hx, hxv⟩
              · rintro ⟨x, hx, w, hxv, hne⟩
                rcases List.mem_cons.mp hx with heq | hx2
                · subst heq; rw [hr] at hxv
                  simp only [Option.some.injEq, Except.ok.injEq] at hxv
                  exact absurd hxv.symm hne
                · exact ⟨x, hx2, w, hxv, hne⟩
            · simpa using ihp.2
      /-
        FAIL case: the entry makes the failed count positive, the head
        rule witnesses the existential, and the violations are non-empty.
      -/
          · have hfc : 0 < failedCount
                ({ name := r.ruleName, rtype := r.ruleType,
                   status := if v.isEmpty then "PASS" else "FAIL",
                   nviolations := v.length } :: p.1) := by
              simp [failedCount, List.filter_cons, List.isEmpty_iff, hv]
            constructor
            · constructor
              · intro _
                exact ⟨r, List.mem_cons_self _ _, v, hr, hv⟩
              · intro _; exact hfc
            · constructor
              · intro _
                simp [hv]
              · intro _; exact hfc

/-- C1: for every loaded rule set and index, when every checked rule
checker returns, the fitness command signals failure with a non-zero
exit code exactly when at least one checked rule produced at least one
violation; when every checked rule passes, the command exits 0. -/
theorem fitness_exit_iff_violation (re : RegexEngine) (db : DB) (rules : List RuleCfg)
    (rs : List RuleResult) (vs : List Violation)
    (h : fitnessLoop re db rules = Except.ok (rs, vs)) :
    fitnessExitCode rs ≠ 0 ↔
      ∃ r ∈ rules, ∃ v, runRule re db r = some (Except.ok v) ∧ v ≠ [] := by
  have hi := (fitnessLoop_ok_iff re db rules rs vs h).1
  rw [← hi]
  unfold fitnessExitCode
  by_cases hf : 0 < failedCount rs
  · simp [hf]
  · simp [hf]

/-- C1 witness: a single forbidden dependency edge makes the loop record
one FAIL entry and the exit code is non-zero; both sides of the
equivalence hold at this input. -/
theorem fitness_exit_iff_violation_witness :
    fitnessExitCode [{ name := "no a to b", rtype := "dependency", status := "FAIL",
                       nviolations := 1 }] ≠ 0 ↔
      ∃ r ∈ [RuleCfg.dep ruleForbidAB], ∃ v,
        runRule reTrue dbEdgeAB r = some (Except.ok v) ∧ v ≠ [] :=
  fitness_exit_iff_violation reTrue dbEdgeAB [RuleCfg.dep ruleForbidAB]
    [{ name := "no a to b", rtype := "dependency", status := "FAIL", nviolations := 1 }]
    [violAB] rfl

/-- C10: when a run collects more than 100 violations, the JSON
envelope truncates the violations array to exactly 100 entries while
`summary.total_violations` stays the full count, so the array is
strictly shorter; and the exit decision is taken from the untruncated
data: the exit code is non-zero exactly when the full violation list is
non-empty, hence 1 here. -/
theorem fitness_truncation_invariant (re : RegexEngine) (db : DB) (rules : List RuleCfg)
    (rs : List RuleResult) (vs : List Violation)
    (h : fitnessLoop re db rules = Except.ok (rs, vs)) (hlen : 100 < vs.length) :
    (fitnessJsonViolations vs).length = 100 ∧
    fitnessTotalViolations vs = vs.length ∧
    (fitnessJsonViolations vs).length < fitnessTotalViolations vs ∧
    (fitnessExitCode rs ≠ 0 ↔ vs ≠ []) ∧
    fitnessExitCode rs = 1 := by
  have h2 := (fitnessLoop_ok_iff re db rules rs vs h).2
  have hvne : vs ≠ [] := by
    intro he; rw [he] at hlen; simp at hlen
  have hfail : 0 < failedCount rs := h2.mpr hvne
  refine ⟨?_, rfl, ?_, ?_, ?_⟩
  · simp only [fitnessJsonViolations, List.length_take]
    omega
  · simp only [fitnessJsonViolations, fitnessTotalViolations, List.length_take]
    omega
  · constructor
    · intro _; exact hvne
    · intro _; simp [fitnessExitCode, hfail]
  · simp [fitnessExitCode, hfail]

/-- C10 witness: 101 copies of a forbidden edge produce 101 violations;
the emitted array has 100 entries, the total is 101, and the exit code
is 1. -/
theorem fitness_truncation_invariant_witness :
    (fitnessJsonViolations (List.replicate 101 violAB)).length = 100 ∧
    fitnessTotalViolations (List.replicate 101 violAB) = (List.replicate 101 violAB).length ∧
    (fitnessJsonViolations (List.replicate 101 violAB)).length <
      fitnessTotalViolations (List.replicate 101 violAB) ∧
    (fitnessExitCode [{ name := "no a to b", rtype := "dependency", status := "FAIL",
                        nviolations := 101 }] ≠ 0 ↔
      List.replicate 101 violAB ≠ ([] : List Violation)) ∧
    fitnessExitCode [{ name := "no a to b", rtype := "dependency", status := "FAIL",
                       nviolations := 101 }] = 1 :=
  fitness_truncation_invariant reTrue dbEdgeAB101 [RuleCfg.dep ruleForbidAB]
    [{ name := "no a to b", rtype := "dependency", status := "FAIL", nviolations := 101 }]
    (List.replicate 101 violAB) rfl (by simp)

/-- The threshold block yields a violation exactly when the value
exceeds the `max` bound or is below the `min` bound. -/
theorem thresholdChecks_ne_nil (rn mn : String) (maxv minv : Option Int) (value : ℚ) :
    thresholdChecks rn mn maxv minv value ≠ [] ↔
      (∃ m, maxv = some m ∧ (m : ℚ) < value) ∨
      (∃ m, minv = some m ∧ value < (m : ℚ)) := by
  unfold thresholdChecks
  rcases maxv with _ | m <;> rcases minv with _ | m2
  · simp
  · by_cases h2 : value < (m2 : ℚ) <;> simp [h2]
  · by_cases h1 : (m : ℚ) < value <;> simp [h1]
  · by_cases h1 : (m : ℚ) < value <;> by_cases h2 : value < (m2 : ℚ) <;> simp [h1, h2]

/-- Every violation the threshold block yields carries the metric name
and the checked value. -/
theorem thresholdChecks_mem (rn mn : String) (maxv minv : Option Int) (value : ℚ) :
    ∀ v ∈ thresholdChecks rn mn maxv minv value,
      v.metric = some mn ∧ v.value = some value ∧ v.rule = rn ∧ v.vtype = "metric" := by
  unfold thresholdChecks
  intro v hv
  rcases List.mem_append.mp hv with hv2 | hv2
  · rcases maxv with _ | m
    · simp at hv2
    · simp at hv2
      obtain ⟨_, rfl⟩ := hv2
      simp
  · rcases minv with _ | m
    · simp at hv2
    · simp at hv2
      obtain ⟨_, rfl⟩ := hv2
      simp

/-- C4 amended: on a non-empty symbol graph the health score the metric
rule evaluates is only the cycle term, `max(0, 100 - int(2 * tangle
percentage))`, clamped into [0, 100] (god components, dead exports and
issue counts are not subtracted), and a violation is reported exactly
when this score exceeds `max` or is below `min`; on an empty graph the
rule never reports violations. -/
theorem health_rule_cycle_term_only :
    (∀ (db : DB) (rule : MetricRule) (total : ℕ) (cycles : List (List ℕ)),
      rule.metric = "health_score" → db.graphQ = Except.ok (total, cycles) → 0 < total →
      ∃ vs, checkMetricRule rule db = Except.ok vs ∧
        (vs ≠ [] ↔
          (∃ m, rule.max = some m ∧ m < healthScoreInline total cycles) ∨
          (∃ m, rule.min = some m ∧ healthScoreInline total cycles < m)) ∧
        (0 ≤ healthScoreInline total cycles ∧ healthScoreInline total cycles ≤ 100) ∧
        (∀ v ∈ vs, v.metric = some "health_score" ∧
          v.value = some ((healthScoreInline total cycles : Int) : ℚ))) ∧
    (∀ (db : DB) (rule : MetricRule) (cycles : List (List ℕ)),
      rule.metric = "health_score" → db.graphQ = Except.ok (0, cycles) →
      checkMetricRule rule db = Except.ok []) := by
  constructor
  · intro db rule total cycles hm hq ht
    have hz : (total == 0) = false := by
      simp [Nat.pos_iff_ne_zero.mp ht]
    have heq : checkMetricRule rule db =
        Except.ok (thresholdChecks rule.name "health_score" rule.max rule.min
          ((healthScoreInline total cycles : Int) : ℚ)) := by
      unfold checkMetricRule
      rw [hm, hq]
      simp [hz]
    refine ⟨_, heq, ?_, ?_, ?_⟩
    · rw [thresholdChecks_ne_nil]
      constructor
      · rintro (⟨m, hm2, hlt⟩ | ⟨m, hm2, hlt⟩)
        · exact Or.inl ⟨m, hm2, by exact_mod_cast hlt⟩
        · exact Or.inr ⟨m, hm2, by exact_mod_cast hlt⟩
      · rintro (⟨m, hm2, hlt⟩ | ⟨m, hm2, hlt⟩)
        · exact Or.inl ⟨m, hm2, by exact_mod_cast hlt⟩
        · exact Or.inr ⟨m, hm2, by exact_mod_cast hlt⟩
    · exact ⟨le_max_left _ _, max_le (by norm_num)
        (sub_le_self 100 (Int.ofNat_nonneg ((cycles.map List.length).sum * 200 / total)))⟩
    · intro v hv
      have := thresholdChecks_mem rule.name "health_score" rule.max rule.min
        ((healthScoreInline total cycles : Int) : ℚ) v hv
      exact ⟨this.1, this.2.1⟩
  · intro db rule cycles hm hq
    unfold checkMetricRule
    rw [hm, hq]
    simp

/-- C4 witness: one symbol in a self-loop cycle gives tangle 100
percent, so the inline score is 0; a `min: 70` rule reports a
violation. -/
theorem health_rule_cycle_term_only_witness :
    ∃ vs, checkMetricRule ruleHealthMin70 dbOneSymCycle = Except.ok vs ∧
      (vs ≠ [] ↔
        (∃ m, ruleHealthMin70.max = some m ∧ m < healthScoreInline 1 [[0]]) ∨
        (∃ m, ruleHealthMin70.min = some m ∧ healthScoreInline 1 [[0]] < m)) ∧
      (0 ≤ healthScoreInline 1 [[0]] ∧ healthScoreInline 1 [[0]] ≤ 100) ∧
      (∀ v ∈ vs, v.metric = some "health_score" ∧
        v.value = some ((healthScoreInline 1 [[0]] : Int) : ℚ)) :=
  health_rule_cycle_term_only.1 dbOneSymCycle ruleHealthMin70 1 [[0]] rfl rfl (by norm_num)

/-- C8: for a `cognitive_complexity` rule with threshold `max = M`, the
reported violations are exactly the symbols whose stored complexity
strictly exceeds M — as many as there are offenders up to the LIMIT of
50, listed in descending complexity order, each carrying the symbol, its
value and the threshold; every offender is reported whenever at most 50
exist. Without a `max` the rule behaves as with threshold 999. -/
theorem cognitive_rule_characterization :
    (∀ (db : DB) (rows : List SymMetricRow) (rule : MetricRule) (M : Int),
      rule.metric = "cognitive_complexity" → rule.max = some M →
      db.symMetricsQ = Except.ok rows →
      ∃ vs, checkMetricRule rule db = Except.ok vs ∧
        vs.length = min 50 (rows.filter
          (fun r => decide ((M : ℚ) < r.cognitiveComplexity))).length ∧
        (∀ v ∈ vs, v.threshold = some M ∧
          ∃ r ∈ rows, (M : ℚ) < r.cognitiveComplexity ∧
            v.sym = some r.name ∧ v.value = some r.cognitiveComplexity) ∧
        vs.Pairwise (fun a b => ∀ x y, a.value = some x → b.value = some y → y ≤ x) ∧
        ((rows.filter (fun r => decide ((M : ℚ) < r.cognitiveComplexity))).length ≤ 50 →
          ∀ r ∈ rows, (M : ℚ) < r.cognitiveComplexity →
            ∃ v ∈ vs, v.sym = some r.name ∧ v.value = some r.cognitiveComplexity)) ∧
    (∀ (db : DB) (rule : MetricRule),
      rule.metric = "cognitive_complexity" → rule.max = none →
      checkMetricRule rule db = checkMetricRule { rule with max := some 999 } db) := by
  constructor
  · intro db rows rule M hm hmax hq
    have heq : checkMetricRule rule db = Except.ok
        (((List.insertionSort ccGE (rows.filter
            (fun r => decide ((M : ℚ) < r.cognitiveComplexity)))).take 50).map (fun r =>
          { rule := rule.name, vtype := "metric", metric := some "cognitive_complexity",
            sym := some r.name, value := some r.cognitiveComplexity,
            threshold := some M })) := by
      unfold checkMetricRule
      rw [hm, hq]
      simp [hmax]
    refine ⟨_, heq, ?_, ?_, ?_, ?_⟩
    · simp [List.length_take, List.length_insertionSort]
    · intro v hv
      rcases List.mem_map.mp hv with ⟨r, hr, rfl⟩
      have hr2 : r ∈ List.insertionSort ccGE (rows.filter
          (fun r => decide ((M : ℚ) < r.cognitiveComplexity))) :=
        List.take_subset _ _ hr
      have hr3 := (List.mem_insertionSort ccGE).mp hr2
      obtain ⟨hrow, hp⟩ := List.mem_filter.mp hr3
      exact ⟨rfl, r, hrow, of_decide_eq_true hp, rfl, rfl⟩
    · have hs := List.sorted_insertionSort ccGE (rows.filter
        (fun r => decide ((M : ℚ) < r.cognitiveComplexity)))
      have htake := List.Pairwise.sublist (List.take_sublist 50 _) hs
      rw [List.pairwise_map]
      refine htake.imp ?_
      intro a b hab x y hx hy
      simp only [Option.some.injEq] at hx hy
      rw [← hx, ← hy]
      exact hab
    · intro hle r hrow hlt
      have hrf : r ∈ rows.filter (fun r => decide ((M : ℚ) < r.cognitiveComplexity)) :=
        List.mem_filter.mpr ⟨hrow, decide_eq_true hlt⟩
      have hlen : (List.insertionSort ccGE (rows.filter
          (fun r => decide ((M : ℚ) < r.cognitiveComplexity)))).length ≤ 50 := by
        rw [List.length_insertionSort]; exact hle
      have htk := List.take_of_length_le hlen
      have hrs := (List.mem_insertionSort ccGE).mpr hrf
      rw [htk]
      exact ⟨_, List.mem_map_of_mem _ hrs, rfl, rfl⟩
  · intro db rule hm hmax
    simp [checkMetricRule, hm, hmax]

/-- C8 witness: with threshold 25 over three stored rows of complexity
30, 99 and 10, the rule reports the two offenders in descending order
with their values and the threshold. -/
theorem cognitive_rule_characterization_witness :
    ∃ vs, checkMetricRule ruleCcMax25 dbCcRows = Except.ok vs ∧
      vs.length = min 50 (ccRows.filter
        (fun r => decide (((25 : Int) : ℚ) < r.cognitiveComplexity))).length ∧
      (∀ v ∈ vs, v.threshold = some 25 ∧
        ∃ r ∈ ccRows, ((25 : Int) : ℚ) < r.cognitiveComplexity ∧
          v.sym = some r.name ∧ v.value = some r.cognitiveComplexity) ∧
      vs.Pairwise (fun a b => ∀ x y, a.value = some x → b.value = some y → y ≤ x) ∧
      ((ccRows.filter (fun r => decide (((25 : Int) : ℚ) < r.cognitiveComplexity))).length ≤ 50 →
        ∀ r ∈ ccRows, ((25 : Int) : ℚ) < r.cognitiveComplexity →
          ∃ v ∈ vs, v.sym = some r.name ∧ v.value = some r.cognitiveComplexity) :=
  cognitive_rule_characterization.1 dbCcRows ccRows ruleCcMax25 25 rfl rfl rfl

/-- C7 amended: every failing invocation through `_run_roam` (non-zero
exit, blank stdout, unparseable output, timeout, raised exception)
returns a plain dict carrying an `error` message string; the dict has no
`summary` key at all, so no envelope with `summary.verdict = "error"` is
built. -/
theorem run_roam_failure_error_dict (parse : String → Except String JVal) (o : RunOutcome)
    (h : RunFailure parse o) :
    (∃ m, objGet (runRoam parse o) "error" = some (JVal.str m)) ∧
    objGet (runRoam parse o) "summary" = none := by
  cases o with
  | timedOut => exact ⟨⟨"Command timed out after 60s", rfl⟩, rfl⟩
  | raised msg => exact ⟨⟨msg, rfl⟩, rfl⟩
  | completed rc out err =>
    simp only [RunFailure] at h
    simp only [runRoam]
    by_cases hc : (rc == 0 && !(pyStrip out == "")) = true
    · rw [if_pos hc]
      simp only [Bool.and_eq_true, beq_iff_eq, Bool.not_eq_true', beq_eq_false_iff_ne] at hc
      rcases h with h | h | ⟨m, hm⟩
      · exact absurd hc.1 h
      · exact absurd h hc.2
      · rw [hm]
        exact ⟨⟨_, rfl⟩, rfl⟩
    · rw [if_neg hc]
      exact ⟨⟨_, rfl⟩, rfl⟩

/-- C7 amended witness: the timeout path returns the timeout error dict
with no summary. -/
theorem run_roam_failure_error_dict_witness :
    (∃ m, objGet (runRoam parseNone RunOutcome.timedOut) "error" = some (JVal.str m)) ∧
    objGet (runRoam parseNone RunOutcome.timedOut) "summary" = none :=
  run_roam_failure_error_dict parseNone RunOutcome.timedOut trivial

/-- C3 amended: `validate_envelope` returns valid with an empty error
list exactly when all six required fields are present, `summary` is a
dict, and `schema_version` is a string of exactly three dot-separated
all-digit parts; the contents of `summary` are not inspected, so a
summary without a `verdict` key is still accepted. -/
theorem validate_envelope_amended (data : List (String × JVal)) :
    validate_envelope data = some (true, []) ↔
      ((∀ f ∈ REQUIRED_FIELDS, (lookupField data f).isSome = true) ∧
       (∃ fs, lookupField data "summary" = some (JVal.obj fs)) ∧
       (∃ s, lookupField data "schema_version" = some (JVal.str s) ∧
         (pySplit '.' s).length = 3 ∧ ∀ p ∈ pySplit '.' s, pyIsdigit p = true)) := by
  have herrs1 : (REQUIRED_FIELDS.filterMap (fun f =>
      if (lookupField data f).isNone then some (EnvErr.missingField f) else none)) = [] ↔
      ∀ f ∈ REQUIRED_FIELDS, (lookupField data f).isSome = true := by
    rw [List.filterMap_eq_nil_iff]
    constructor
    · intro h f hf
      have h2 := h f hf
      rcases hx : lookupField data f with _ | v
      · rw [hx] at h2; simp at h2
      · simp [hx]
    · intro h f hf
      have h2 := h f hf
      rcases hx : lookupField data f with _ | v
      · rw [hx] at h2; simp at h2
      · simp [hx]
  unfold validate_envelope
  rcases hsv : lookupField data "schema_version" with _ | v
  · constructor
    · intro h
      exfalso
      simp only [Option.some.injEq, Prod.mk.injEq] at h
      have hnil := (List.append_eq_nil.mp h.2).1
      have hall := herrs1.mp hnil
      have := hall "schema_version" (by simp [REQUIRED_FIELDS])
      rw [hsv] at this
      simp at this
    · rintro ⟨_, _, s, hs, _⟩
      cases hs
  · cases v with
    | str s =>
      rcases hsum : lookupField data "summary" with _ | w
      · constructor
        · intro h
          exfalso
          simp only [Option.some.injEq, Prod.mk.injEq] at h
          have hnil := (List.append_eq_nil.mp (List.append_eq_nil.mp h.2).1).1
          have hall := herrs1.mp hnil
          have := hall "summary" (by simp [REQUIRED_FIELDS])
          rw [hsum] at this
          simp at this
        · rintro ⟨_, ⟨fs, hfs⟩, _⟩
          cases hfs
      · cases w with
        | obj fs =>
          constructor
          · intro h
            simp only [Option.some.injEq, Prod.mk.injEq] at h
            have h3 := h.2
            have hnil1 := (List.append_eq_nil.mp (List.append_eq_nil.mp h3).1).1
            have hnil3 := (List.append_eq_nil.mp h3).2
            refine ⟨herrs1.mp hnil1, ⟨fs, rfl⟩, s, rfl, ?_⟩
            by_cases hcond : ((pySplit '.' s).length != 3 ||
                !((pySplit '.' s).all pyIsdigit)) = true
            · rw [if_pos hcond] at hnil3; cases hnil3
            · have hcond2 : ((pySplit '.' s).length != 3 ||
                  !((pySplit '.' s).all pyIsdigit)) = false := by
                simpa using hcond
              simp only [Bool.or_eq_false_iff, bne_eq_false_iff_eq,
                Bool.not_eq_false', List.all_eq_true] at hcond2
              exact ⟨hcond2.1, hcond2.2⟩
          · rintro ⟨hall, _, s2, hs2, hlen, hdig⟩
            have hss : s = s2 := by
              simpa using hs2
            subst hss
            have h1 : (REQUIRED_FIELDS.filterMap (fun f =>
                if (lookupField data f).isNone then some (EnvErr.missingField f)
                else none)) = [] := herrs1.mpr hall
            have hallb : (pySplit '.' s).all pyIsdigit = true :=
              List.all_eq_true.mpr hdig
            have hcondf : (((pySplit '.' s).length != 3) ||
                !((pySplit '.' s).all pyIsdigit)) = false := by
              simp [hlen, hallb]
            simp [h1, hcondf]
        | null =>
          constructor
          · intro h
            simp only [Option.some.injEq, Prod.mk.injEq] at h
            have := (List.append_eq_nil.mp (List.append_eq_nil.mp h.2).1).2
            cases this
          · rintro ⟨_, ⟨fs, hfs⟩, _⟩
            simp at hfs
        | bool b =>
          constructor
          · intro h
            simp only [Option.some.injEq, Prod.mk.injEq] at h
            have := (List.append_eq_nil.mp (List.append_eq_nil.mp h.2).1).2
            cases this
          · rintro ⟨_, ⟨fs, hfs⟩, _⟩
            simp at hfs
        | int n =>
          constructor
          · intro h
            simp only [Option.some.injEq, Prod.mk.injEq] at h
            have := (List.append_eq_nil.mp (List.append_eq_nil.mp h.2).1).2
            cases this
          · rintro ⟨_, ⟨fs, hfs⟩, _⟩
            simp at hfs
        | str s2 =>
          constructor
          · intro h
            simp only [Option.some.injEq, Prod.mk.injEq] at h
            have := (List.append_eq_nil.mp (List.append_eq_nil.mp h.2).1).2
            cases this
          · rintro ⟨_, ⟨fs, hfs⟩, _⟩
            simp at hfs
        | arr xs =>
          constructor
          · intro h
            simp only [Option.some.injEq, Prod.mk.injEq] at h
            have := (List.append_eq_nil.mp (List.append_eq_nil.mp h.2).1).2
            cases this
          · rintro ⟨_, ⟨fs, hfs⟩, _⟩
            simp at hfs
    | null =>
      constructor
      · intro h; cases h
      · rintro ⟨_, _, s, hs, _⟩
        simp at hs
    | bool b =>
      constructor
      · intro h; cases h
      · rintro ⟨_, _, s, hs, _⟩
        simp at hs
    | int n =>
      constructor
      · intro h; cases h
      · rintro ⟨_, _, s, hs, _⟩
        simp at hs
    | arr xs =>
      constructor
      · intro h; cases h
      · rintro ⟨_, _, s, hs, _⟩
        simp at hs
    | obj fs2 =>
      constructor
      · intro h; cases h
      · rintro ⟨_, _, s, hs, _⟩
        simp at hs

/-- A string starting with `- name:` is neither empty nor a comment
line. -/
theorem name_line_facts (s : String) (h : pyStartsWith s "- name:" = true) :
    (s == "") = false ∧ pyStartsWith s "#" = false := by
  cases s with
  | mk data =>
    cases data with
    | nil => simp [pyStartsWith, List.isPrefixOf] at h
    | cons c cs =>
      simp only [pyStartsWith, List.isPrefixOf, Bool.and_eq_true, beq_iff_eq] at h
      constructor
      · apply beq_eq_false_iff_ne.mpr
        intro he
        have hd : c :: cs = [] := congrArg String.data he
        cases hd
      · rw [← h.1]
        simp [pyStartsWith, List.isPrefixOf]

/-- With no rule open, any line that does not start `- name:` leaves the
state unchanged. -/
theorem parseStep_none (acc : List YDict) (l : String)
    (h : pyStartsWith (pyStrip l) "- name:" = false) :
    parseStep (none, acc) l = (none, acc) := by
  simp only [parseStep, h]
  split <;> rfl

/-- C9: the fallback loader understands the flat key:value dialect.
Blank and comment lines leave the state unchanged; a `- name:` line
flushes the open rule and opens a new one named by the rest of the line
with whitespace and surrounding quotes stripped; any other line with a
colon attaches the converted key/value pair to the open rule;
`true`/`false` convert case-insensitively to booleans and integer and
float literals to numbers, everything else staying a string; the final
open rule is appended to the result; and lines before the first
`- name:` line contribute nothing. -/
theorem parse_simple_yaml_characterization :
    (∀ (st : Option YDict × List YDict) (line : String),
        pyStrip line = "" ∨ pyStartsWith (pyStrip line) "#" = true →
        parseStep st line = st) ∧
    (∀ (cur : Option YDict) (acc : List YDict) (line : String),
        pyStartsWith (pyStrip line) "- name:" = true →
        parseStep (cur, acc) line =
          (some [("name", YVal.str (stripQuotes (pyStrip (colonRest (pyStrip line)))))],
           acc ++ cur.toList)) ∧
    (∀ (cur : YDict) (acc : List YDict) (line : String),
        pyStrip line ≠ "" →
        pyStartsWith (pyStrip line) "#" = false →
        pyStartsWith (pyStrip line) "- name:" = false →
        (pyStrip line).toList.contains ':' = true →
        parseStep (some cur, acc) line =
          (some (dictSet cur (pyStrip (colonKey (pyStrip line)))
                   (pyConvert (stripQuotes (pyStrip (colonRest (pyStrip line)))))), acc)) ∧
    (∀ v : String,
        (lowerStr v = "true" → pyConvert v = YVal.bool true) ∧
        (lowerStr v = "false" → pyConvert v = YVal.bool false) ∧
        (∀ n : Int, lowerStr v ≠ "true" → lowerStr v ≠ "false" → pyInt v = some n →
          pyConvert v = YVal.int n) ∧
        (lowerStr v ≠ "true" → lowerStr v ≠ "false" → pyInt v = none →
          pyFloatOk v = true → pyConvert v = YVal.float v)) ∧
    (∀ (text : String) (cur : YDict) (acc : List YDict),
        (pySplit (Char.ofNat 10) text).foldl parseStep (none, []) = (some cur, acc) →
        parseSimpleYaml text = acc ++ [cur]) ∧
    (∀ (pre post : List String),
        (∀ l ∈ pre, pyStartsWith (pyStrip l) "- name:" = false) →
        List.foldl parseStep (none, []) (pre ++ post) =
          List.foldl parseStep (none, []) post) := by
  refine ⟨?_, ?_, ?_, ?_, ?_, ?_⟩
  · intro st line h
    rcases h with h | h
    · simp [parseStep, h]
    · simp [parseStep, h]
  · intro cur acc line h
    have hfacts := name_line_facts (pyStrip line) h
    simp [parseStep, h, hfacts.1, hfacts.2]
  · intro cur acc line h0 h1 h2 h3
    have hbeq : (pyStrip line == "") = false := beq_eq_false_iff_ne.mpr h0
    simp only [parseStep, hbeq, h1, h2, h3]
    simp
  · intro v
    refine ⟨?_, ?_, ?_, ?_⟩
    · intro h
      simp [pyConvert, h]
    · intro h
      simp [pyConvert, h]
    · intro n h1 h2 h3
      simp [pyConvert, beq_eq_false_iff_ne.mpr h1, beq_eq_false_iff_ne.mpr h2, h3]
    · intro h1 h2 h3 h4
      simp [pyConvert, beq_eq_false_iff_ne.mpr h1, beq_eq_false_iff_ne.mpr h2, h3, h4]
  · intro text cur acc h
    simp only [parseSimpleYaml]
    rw [h]
    simp
  · intro pre post h
    induction pre with
    | nil => simp
    | cons l pre2 ih =>
      simp only [List.cons_append, List.foldl_cons]
      rw [parseStep_none [] l (h l (List.mem_cons_self _ _))]
      exact ih (fun x hx => h x (List.mem_cons_of_mem _ hx))

/-- C9 witness: a comment line leaves the state unchanged and the value
string `25` converts to the integer 25. -/
theorem parse_simple_yaml_characterization_witness :
    parseStep (none, []) "  # note" = (none, []) ∧ pyConvert "25" = YVal.int 25 :=
  ⟨parse_simple_yaml_characterization.1 (none, []) "  # note" (Or.inr (by decide)),
   (parse_simple_yaml_characterization.2.2.2.1 "25").2.2.1 25 (by decide) (by decide)
     (by decide)⟩

end Roam
